import Mathlib

set_option autoImplicit false

namespace BalanceService

/-! Shallow embedding of `safe_transaction_service/history/services/balance_service.py`.

Python `float` values are modelled as exact rationals (`ℚ`); binary floating
point rounding is not modelled.  Python exceptions are modelled by an explicit
error type, and functions that may raise return an `Except` or a dedicated
outcome type.  External collaborators (the HTTP ticker responses, the Ethereum
RPC client, the two on-chain oracles, the keccak hash used for address
checksums) are parameters of the corresponding definitions, and the three
caches owned by the service are threaded explicitly as state. -/

/-- Python exceptions that can escape the functions of `balance_service.py`. -/
inductive PyErr where
  | cannotGetEthereumPrice
  | keyError
  | valueError
  | typeError
  | indexError
  | assertionError
  | attributeError
  deriving DecidableEq

/-- A JSON value sitting in a numeric-price position, as seen by Python's
`float(...)`: either a value that `float` converts to the rational `q`, or a
string `float` rejects (raising `ValueError`), or a non-convertible value such
as `null` or an object (raising `TypeError`). -/
inductive JVal where
  | num (q : ℚ)
  | badStr
  | nonNumeric
  deriving DecidableEq

/-- Python `float(v)` on a JSON value: the result, or the exception it raises. -/
def pyFloat : JVal → Except PyErr ℚ
  | .num q => .ok q
  | .badStr => .error .valueError
  | .nonNumeric => .error .typeError

/-- Outcome of one of the Python price functions: a returned float, a
fall-off-the-end `return None`, or a raised exception. -/
inductive PriceOutcome where
  | price (q : ℚ)
  | noneReturn
  | exn (e : PyErr)
  deriving DecidableEq

/-- HTTP status and parsed JSON payload of the Binance `avgPrice` call:
`ok` is `response.ok`, `price` is the payload's `price` key (`none` when the
key is missing from the payload). -/
structure BinanceResponse where
  ok : Bool
  price : Option JVal
  deriving DecidableEq

/-- `BalanceService.get_eth_usd_price_binance`, as a function of the HTTP
response.  Mirrors the source line by line: a non-ok response raises
`CannotGetEthereumPrice`; `api_json['price']` raises `KeyError` when the key
is absent (the code's `try` only catches `ValueError`); `float` failure with
`ValueError` is re-raised as `CannotGetEthereumPrice`; a zero price raises
`CannotGetEthereumPrice` (that raise is not a `ValueError`, so it
propagates). -/
def get_eth_usd_price_binance (r : BinanceResponse) : PriceOutcome :=
  if !r.ok then .exn .cannotGetEthereumPrice
  else
    match r.price with
    | none => .exn .keyError
    | some v =>
      match pyFloat v with
      | .ok q => if q = 0 then .exn .cannotGetEthereumPrice else .price q
      | .error .valueError => .exn .cannotGetEthereumPrice
      | .error e => .exn e

/-- The `c` (close price) field of one Kraken ticker entry: `none` when the
key is missing, otherwise the list of values under it. -/
structure KrakenTicker where
  c : Option (List JVal)
  deriving DecidableEq

/-- HTTP status and parsed JSON payload of the Kraken `Ticker` call: `ok` is
`response.ok`, `error` is the payload's `error` key (a JSON list; `none` when
the key is missing), `result` is the payload's `result` key (an
insertion-ordered dict of ticker entries; `none` when the key is missing). -/
structure KrakenResponse where
  ok : Bool
  error : Option (List String)
  result : Option (List (String × KrakenTicker))
  deriving DecidableEq

/-- `BalanceService.get_eth_usd_price_kraken`, as a function of the HTTP
response.  Mirrors the source: `error = api_json.get('error')` is truthy when
it is a non-empty list; on `not response.ok or error` the code evaluates
`str(api_json['error'])`, which raises `KeyError` when the key is absent,
else raises `CannotGetEthereumPrice`; `api_json['result']` raises `KeyError`
when absent (not caught: the `try` only catches `ValueError`); the `for` loop
over an empty result dict falls through and the function returns `None`;
otherwise the first entry's `['c'][0]` is taken (`KeyError` when `c` absent,
`IndexError` when it is an empty list) and passed to `float`, with
`ValueError` re-raised as `CannotGetEthereumPrice` and a zero price raising
`CannotGetEthereumPrice`. -/
def get_eth_usd_price_kraken (r : KrakenResponse) : PriceOutcome :=
  let errTruthy : Bool :=
    match r.error with
    | some (_ :: _) => true
    | _ => false
  if !r.ok || errTruthy then
    match r.error with
    | none => .exn .keyError
    | some _ => .exn .cannotGetEthereumPrice
  else
    match r.result with
    | none => .exn .keyError
    | some [] => .noneReturn
    | some ((_, t) :: _) =>
      match t.c with
      | none => .exn .keyError
      | some [] => .exn .indexError
      | some (v :: _) =>
        match pyFloat v with
        | .ok q => if q = 0 then .exn .cannotGetEthereumPrice else .price q
        | .error .valueError => .exn .cannotGetEthereumPrice
        | .error e => .exn e

/-- Body of `BalanceService.get_eth_usd_price` before the `@cachedmethod`
decorator is applied: try Kraken; only a `CannotGetEthereumPrice` exception
is caught, and triggers the Binance fallback.  Any other exception — and a
`None` return — passes through unchanged. -/
def get_eth_usd_price_uncached (kraken : KrakenResponse) (binance : BinanceResponse) :
    PriceOutcome :=
  match get_eth_usd_price_kraken kraken with
  | .exn .cannotGetEthereumPrice => get_eth_usd_price_binance binance
  | o => o

/-- Token data returned by the RPC collaborator `ethereum_client.erc20.get_info`. -/
structure Erc20Info where
  name : String
  symbol : String
  decimals : ℕ
  deriving DecidableEq

/-- Module-level helper `get_erc20_logo_uri`. -/
def get_erc20_logo_uri (address : String) : String :=
  "https://gnosis-safe-token-logos.s3.amazonaws.com/" ++ address ++ ".png"

/-- Dataclass `Erc20InfoWithLogo`. -/
structure Erc20InfoWithLogo where
  address : String
  name : String
  symbol : String
  decimals : ℕ
  logo_uri : String
  deriving DecidableEq

/-- Construction of an `Erc20InfoWithLogo`, including its `__post_init__`
which derives `logo_uri` from the address. -/
def mkErc20InfoWithLogo (address name symbol : String) (decimals : ℕ) : Erc20InfoWithLogo :=
  ⟨address, name, symbol, decimals, get_erc20_logo_uri address⟩

/-- Dataclass `Balance`.  `token_address` is `none` for the base currency
(ether); `token` is the resolved metadata, `none` for ether. -/
structure Balance where
  token_address : Option String
  token : Option Erc20InfoWithLogo
  balance : ℤ
  deriving DecidableEq

/-- Dataclass `BalanceWithUsd`, extending `Balance` with the USD amount. -/
structure BalanceWithUsd extends Balance where
  balance_usd : ℚ
  deriving DecidableEq

/-- One entry of the raw balances returned by the RPC collaborator
`ethereum_client.erc20.get_balances`. -/
structure RawBalance where
  token_address : Option String
  balance : ℤ
  deriving DecidableEq

/-- The `self.cache_token_info` plain dict, as an association list (most
recent insertion first). -/
abbrev TokenInfoCache := List (String × Option Erc20InfoWithLogo)

/-- Body of `BalanceService.get_token_info` before its `@cachedmethod`
decorator: look the token up through the RPC collaborator `get_info`
(`none` models a raised `InvalidERC20Info`); on failure log and return
`None`. -/
def get_token_info_uncached (get_info : String → Option Erc20Info) (token_address : String) :
    Option Erc20InfoWithLogo :=
  match get_info token_address with
  | some i => some (mkErc20InfoWithLogo token_address i.name i.symbol i.decimals)
  | none => none

/-- `BalanceService.get_token_info`: the `@cachedmethod` wrapper around the
body, over the plain dict `cache_token_info`.  On a miss the wrapper stores
whatever the method returned — including the `None` produced for an invalid
token. -/
def get_token_info (get_info : String → Option Erc20Info) (cache : TokenInfoCache)
    (token_address : String) : Option Erc20InfoWithLogo × TokenInfoCache :=
  match cache.lookup token_address with
  | some v => (v, cache)
  | none =>
    let v := get_token_info_uncached get_info token_address
    (v, (token_address, v) :: cache)

/-- Exception raised by the on-chain price oracles' `get_price`. -/
inductive OracleException where
  | oracleException
  deriving DecidableEq

/-- Body of `BalanceService.get_token_eth_value` before `@cachedmethod`:
`uniswap` and `kyber` are the outcomes of the two oracles' `get_price` for
the requested token; an `OracleException` from Uniswap is logged and falls
through to Kyber, and one from Kyber is logged and degrades to `0.`. -/
def get_token_eth_value_uncached (uniswap kyber : Except OracleException ℚ) : ℚ :=
  match uniswap with
  | .ok price => price
  | .error _ =>
    match kyber with
    | .ok price => price
    | .error _ => 0

/-- Entries of a `cachetools.TTLCache`: key, value, insertion time (in
seconds), most recent insertion first. -/
abbrev TTLEntries (κ α : Type) := List (κ × α × ℕ)

/-- Lookup in a TTL cache at time `now`: an entry is live while
`now < insertion time + ttl`. -/
def ttlLookup {κ α : Type} [BEq κ] (ttl : ℕ) (entries : TTLEntries κ α) (now : ℕ)
    (k : κ) : Option α :=
  match entries.lookup k with
  | some (v, t) => if now < t + ttl then some v else none
  | none => none

/-- TTL of both price caches: `60 * 30` seconds (30 minutes of caching). -/
def priceCacheTTL : ℕ := 60 * 30

/-- `BalanceService.get_eth_usd_price`: the `@cachedmethod(TTLCache)` wrapper
around `get_eth_usd_price_uncached`, over `cache_eth_usd_price`.  The method
takes no argument, so the cache holds a single key, modelled as `Unit`.  A
returned value (a float, or `None` from the Kraken empty-result path) is
cached; a raised exception is not. -/
def get_eth_usd_price (kraken : KrakenResponse) (binance : BinanceResponse)
    (cache : TTLEntries Unit (Option ℚ)) (now : ℕ) :
    PriceOutcome × TTLEntries Unit (Option ℚ) :=
  match ttlLookup priceCacheTTL cache now () with
  | some (some q) => (.price q, cache)
  | some none => (.noneReturn, cache)
  | none =>
    match get_eth_usd_price_uncached kraken binance with
    | .price q => (.price q, ((), some q, now) :: cache)
    | .noneReturn => (.noneReturn, ((), none, now) :: cache)
    | .exn e => (.exn e, cache)

/-- `BalanceService.get_token_eth_value`: the `@cachedmethod(TTLCache)`
wrapper around its body, over `cache_token_eth_value`, keyed by the token
address.  The body never raises, so a miss always stores a value. -/
def get_token_eth_value (uniswap kyber : String → Except OracleException ℚ)
    (cache : TTLEntries String ℚ) (now : ℕ) (token_address : String) :
    ℚ × TTLEntries String ℚ :=
  match ttlLookup priceCacheTTL cache now token_address with
  | some v => (v, cache)
  | none =>
    let v := get_token_eth_value_uncached (uniswap token_address) (kyber token_address)
    (v, (token_address, v, now) :: cache)

/-- Character-level test for a hexadecimal digit. -/
def isHexChar (c : Char) : Bool :=
  c.isDigit || ('a' ≤ c && c ≤ 'f') || ('A' ≤ c && c ≤ 'F')

/-- The library validation `web3.Web3.isChecksumAddress` (EIP-55), with the
keccak-256 hash abstracted: `keccak body` is the sequence of hex-digest
nibbles of the hash of the lowercased 40-character address body (padded with
zeros if shorter than 40).  The address must be `0x` followed by 40 hex
digits, each letter upper-case exactly when the matching hash nibble is at
least 8. -/
def isChecksumAddress (keccak : List Char → List ℕ) (s : String) : Bool :=
  match s.toList with
  | '0' :: 'x' :: body =>
    body.length == 40 && body.all isHexChar &&
      ((body.zip (keccak (body.map Char.toLower) ++ List.replicate 40 0)).all
        fun p =>
          if p.1.isDigit then true
          else if 8 ≤ p.2 then p.1.isUpper else p.1.isLower)
  | _ => false

/-- Truthiness of the optional `token_address` string in the Python test
`if not balance['token_address']`: `None` and the empty string are falsy. -/
def strOptFalsy : Option String → Bool
  | none => true
  | some s => s == ""

/-- The per-entry loop of `BalanceService.get_balances`, threading the token
info cache: an entry with a falsy `token_address` is ether and is appended
with `token = None` regardless of its amount; a token entry with positive
balance resolves metadata through the cached `get_token_info` and is skipped
when that returns `None`; a token entry with non-positive balance is
skipped. -/
def get_balances_loop (get_info : String → Option Erc20Info) :
    TokenInfoCache → List RawBalance → List Balance × TokenInfoCache
  | cache, [] => ([], cache)
  | cache, b :: rest =>
    match b.token_address with
    | none =>
      let (bs, c') := get_balances_loop get_info cache rest
      (⟨b.token_address, none, b.balance⟩ :: bs, c')
    | some addr =>
      if addr = "" then
        let (bs, c') := get_balances_loop get_info cache rest
        (⟨b.token_address, none, b.balance⟩ :: bs, c')
      else if 0 < b.balance then
        match get_token_info get_info cache addr with
        | (none, c₁) => get_balances_loop get_info c₁ rest
        | (some t, c₁) =>
          let (bs, c') := get_balances_loop get_info c₁ rest
          (⟨b.token_address, some t, b.balance⟩ :: bs, c')
      else
        get_balances_loop get_info cache rest

/-- Calls made to the network-facing collaborators, in order. -/
inductive CollabCall where
  | erc20_tokens_used_by_address (address : String)
  | erc20_get_balances (address : String) (tokens : List String)
  deriving DecidableEq

/-- The external collaborators of `BalanceService`, as pure functions: the
keccak hash behind checksum validation, the event index, the RPC balance and
token-info lookups, the two ticker HTTP responses and the two oracles. -/
structure Collaborators where
  keccak : List Char → List ℕ
  erc20_tokens_used_by_address : String → List String
  erc20_get_balances : String → List String → List RawBalance
  erc20_get_info : String → Option Erc20Info
  kraken_response : KrakenResponse
  binance_response : BinanceResponse
  uniswap_get_price : String → Except OracleException ℚ
  kyber_get_price : String → Except OracleException ℚ

/-- The mutable state owned by a `BalanceService` instance: its three caches. -/
structure ServiceState where
  cache_eth_usd_price : TTLEntries Unit (Option ℚ)
  cache_token_eth_value : TTLEntries String ℚ
  cache_token_info : TokenInfoCache
  deriving DecidableEq

/-- `BalanceService.get_balances`: the address is first validated with
`assert Web3.isChecksumAddress(...)` (an invalid address raises
`AssertionError` before any collaborator is called); then the event index
and the RPC balance call are consulted and the per-entry filter is applied.
Returns the result together with the updated token info cache, and the trace
of network collaborator calls made. -/
def get_balances (env : Collaborators) (cache : TokenInfoCache) (safe_address : String) :
    Except PyErr (List Balance × TokenInfoCache) × List CollabCall :=
  if isChecksumAddress env.keccak safe_address then
    let erc20_addresses := env.erc20_tokens_used_by_address safe_address
    let raw_balances := env.erc20_get_balances safe_address erc20_addresses
    (.ok (get_balances_loop env.erc20_get_info cache raw_balances),
      [.erc20_tokens_used_by_address safe_address,
       .erc20_get_balances safe_address erc20_addresses])
  else (.error .assertionError, [])

/-- Round a rational to the nearest integer, ties to even — the rounding of
Python's built-in `round`. -/
def roundHalfEven (x : ℚ) : ℤ :=
  let f := x.floor
  let r := x - (f : ℚ)
  if r < 1/2 then f
  else if (1 : ℚ)/2 < r then f + 1
  else if f % 2 = 0 then f else f + 1

/-- Python `round(x, 4)`: round to 4 fractional digits, ties to even.  The
binary floating-point representation error of the Python original is not
modelled. -/
def pyRound4 (x : ℚ) : ℚ := (roundHalfEven (x * 10000) : ℚ) / 10000

/-- The per-balance loop of `BalanceService.get_usd_balances`, threading the
token price cache.  `eth_value` is the value `get_eth_usd_price()` returned
(`none` for a Python `None`, whose multiplication raises `TypeError`); an
ether entry is valued at `eth_value * balance / 10^18`; a token entry first
obtains `token_to_eth_price` from the cached `get_token_eth_value`, values
the entry at `0.` when that price is falsy, and otherwise at
`eth_value * price * balance / 10^decimals` (reading `.decimals` off a
`None` token raises `AttributeError`).  Each amount is rounded to 4 digits
as it is appended. -/
def get_usd_balances_loop (env : Collaborators) (eth_value : Option ℚ) (now : ℕ) :
    TTLEntries String ℚ → List Balance →
    Except PyErr (List BalanceWithUsd) × TTLEntries String ℚ
  | cache, [] => (.ok [], cache)
  | cache, b :: rest =>
    let step : Except PyErr ℚ × TTLEntries String ℚ :=
      match b.token_address with
      | none =>
        (match eth_value with
         | some ev => (.ok (ev * ((b.balance : ℚ) / 10 ^ 18)), cache)
         | none => (.error .typeError, cache))
      | some addr =>
        if addr = "" then
          (match eth_value with
           | some ev => (.ok (ev * ((b.balance : ℚ) / 10 ^ 18)), cache)
           | none => (.error .typeError, cache))
        else
          let pc := get_token_eth_value env.uniswap_get_price env.kyber_get_price cache now addr
          if pc.1 ≠ 0 then
            match b.token with
            | some t =>
              (match eth_value with
               | some ev => (.ok (ev * pc.1 * ((b.balance : ℚ) / 10 ^ t.decimals)), pc.2)
               | none => (.error .typeError, pc.2))
            | none => (.error .attributeError, pc.2)
          else (.ok 0, pc.2)
    match step with
    | (.error e, c₁) => (.error e, c₁)
    | (.ok usd, c₁) =>
      match get_usd_balances_loop env eth_value now c₁ rest with
      | (.ok vbs, c') => (.ok (⟨⟨b.token_address, b.token, b.balance⟩, pyRound4 usd⟩ :: vbs), c')
      | (.error e, c') => (.error e, c')

/-- `BalanceService.get_usd_balances`: fetch the filtered balances, fetch the
base-currency price, then value each balance.  Any exception raised along the
way propagates, leaving no partial result.  `now` is the request time in
seconds; the updated three-cache service state is returned alongside. -/
def get_usd_balances (env : Collaborators) (st : ServiceState) (now : ℕ)
    (safe_address : String) : Except PyErr (List BalanceWithUsd) × ServiceState :=
  match (get_balances env st.cache_token_info safe_address).1 with
  | .error e => (.error e, st)
  | .ok (balances, infoCache) =>
    match get_eth_usd_price env.kraken_response env.binance_response
        st.cache_eth_usd_price now with
    | (.exn e, priceCache) =>
      (.error e, ⟨priceCache, st.cache_token_eth_value, infoCache⟩)
    | (outcome, priceCache) =>
      let eth_value : Option ℚ :=
        match outcome with
        | .price q => some q
        | _ => none
      match get_usd_balances_loop env eth_value now st.cache_token_eth_value balances with
      | (.ok vbs, tokCache) => (.ok vbs, ⟨priceCache, tokCache, infoCache⟩)
      | (.error e, tokCache) => (.error e, ⟨priceCache, tokCache, infoCache⟩)

/-! Characterizations of the cached lookups: with deterministic collaborators,
a call through one of the caches is observationally the pointwise resolver
that prefers the cache contents at the start of the request and falls back to
the uncached body. -/

/-- Pointwise resolver behind the cached `get_token_info`: the entry already
in the cache if any, else the uncached lookup. -/
def resolveInfo (get_info : String → Option Erc20Info) (cache : TokenInfoCache)
    (a : String) : Option Erc20InfoWithLogo :=
  match cache.lookup a with
  | some v => v
  | none => get_token_info_uncached get_info a

theorem get_token_info_fst (g : String → Option Erc20Info) (c : TokenInfoCache) (a : String) :
    (get_token_info g c a).1 = resolveInfo g c a := by
  unfold get_token_info resolveInfo
  cases c.lookup a <;> rfl

theorem resolveInfo_get_token_info_snd (g : String → Option Erc20Info) (c : TokenInfoCache)
    (a b : String) : resolveInfo g (get_token_info g c a).2 b = resolveInfo g c b := by
  unfold get_token_info
  cases h : c.lookup a with
  | some v => rfl
  | none =>
    show resolveInfo g ((a, get_token_info_uncached g a) :: c) b = resolveInfo g c b
    unfold resolveInfo
    by_cases hba : b = a
    · subst hba
      simp [List.lookup, h]
    · have : (b == a) = false := beq_false_of_ne hba
      simp [List.lookup, this]

/-- Filtering policy of `get_balances`, per raw entry, given a metadata
resolver: the base-currency entry (falsy `token_address`) is always kept with
null metadata; a token entry with positive amount is kept exactly when its
metadata resolves, carrying the resolved metadata; any other token entry is
dropped. -/
def balancePolicy (resolve : String → Option Erc20InfoWithLogo) (b : RawBalance) :
    Option Balance :=
  match b.token_address with
  | none => some ⟨b.token_address, none, b.balance⟩
  | some addr =>
    if addr = "" then some ⟨b.token_address, none, b.balance⟩
    else if 0 < b.balance then
      match resolve addr with
      | none => none
      | some t => some ⟨b.token_address, some t, b.balance⟩
    else none

theorem get_balances_loop_ether {b : RawBalance} (g : String → Option Erc20Info)
    (c : TokenInfoCache) (rest : List RawBalance) (h : strOptFalsy b.token_address = true) :
    get_balances_loop g c (b :: rest) =
      (⟨b.token_address, none, b.balance⟩ :: (get_balances_loop g c rest).1,
        (get_balances_loop g c rest).2) := by
  rcases hr : get_balances_loop g c rest with ⟨bs, c'⟩
  rcases hb : b.token_address with _ | addr
  · simp [get_balances_loop, hb, hr]
  · have : addr = "" := by
      simp [strOptFalsy, hb] at h
      exact h
    subst this
    simp [get_balances_loop, hb, hr]

theorem get_balances_loop_token_bad {b : RawBalance} {addr : String}
    {c₁ : TokenInfoCache} (g : String → Option Erc20Info) (c : TokenInfoCache)
    (rest : List RawBalance) (h : b.token_address = some addr) (hne : addr ≠ "")
    (hpos : 0 < b.balance) (hti : get_token_info g c addr = (none, c₁)) :
    get_balances_loop g c (b :: rest) = get_balances_loop g c₁ rest := by
  simp [get_balances_loop, h, hne, hpos, hti]

theorem get_balances_loop_token_good {b : RawBalance} {addr : String}
    {t : Erc20InfoWithLogo} {c₁ : TokenInfoCache} (g : String → Option Erc20Info)
    (c : TokenInfoCache) (rest : List RawBalance) (h : b.token_address = some addr)
    (hne : addr ≠ "") (hpos : 0 < b.balance) (hti : get_token_info g c addr = (some t, c₁)) :
    get_balances_loop g c (b :: rest) =
      (⟨b.token_address, some t, b.balance⟩ :: (get_balances_loop g c₁ rest).1,
        (get_balances_loop g c₁ rest).2) := by
  rcases hr : get_balances_loop g c₁ rest with ⟨bs, c'⟩
  simp [get_balances_loop, h, hne, hpos, hti, hr]

theorem get_balances_loop_token_nonpos {b : RawBalance} {addr : String}
    (g : String → Option Erc20Info) (c : TokenInfoCache) (rest : List RawBalance)
    (h : b.token_address = some addr) (hne : addr ≠ "") (hpos : ¬ 0 < b.balance) :
    get_balances_loop g c (b :: rest) = get_balances_loop g c rest := by
  simp [get_balances_loop, h, hne, hpos]

theorem get_balances_loop_spec (g : String → Option Erc20Info) :
    ∀ (raw : List RawBalance) (c : TokenInfoCache),
      (get_balances_loop g c raw).1 = raw.filterMap (balancePolicy (resolveInfo g c)) ∧
      ∀ a, resolveInfo g (get_balances_loop g c raw).2 a = resolveInfo g c a := by
  intro raw
  induction raw with
  | nil => intro c; exact ⟨rfl, fun _ => rfl⟩
  | cons b rest ih =>
    intro c
    rcases hb : b.token_address with _ | addr
    · rw [get_balances_loop_ether g c rest (by simp [strOptFalsy, hb])]
      refine ⟨?_, (ih c).2⟩
      rw [(ih c).1]
      simp only [List.filterMap_cons, balancePolicy, hb]
    · by_cases haddr : addr = ""
      · subst haddr
        rw [get_balances_loop_ether g c rest (by simp [strOptFalsy, hb])]
        refine ⟨?_, (ih c).2⟩
        rw [(ih c).1]
        simp [List.filterMap_cons, balancePolicy, hb]
      · by_cases hpos : 0 < b.balance
        · rcases hti : get_token_info g c addr with ⟨v, c₁⟩
          have hv : v = resolveInfo g c addr := by
            have := get_token_info_fst g c addr
            rw [hti] at this
            exact this
          have hpres : ∀ x, resolveInfo g c₁ x = resolveInfo g c x := by
            intro x
            have := resolveInfo_get_token_info_snd g c addr x
            rw [hti] at this
            exact this
          have hcong : rest.filterMap (balancePolicy (resolveInfo g c₁)) =
              rest.filterMap (balancePolicy (resolveInfo g c)) := by
            apply List.filterMap_congr
            intro x _
            congr 1
            funext y
            exact hpres y
          cases v with
          | none =>
            rw [get_balances_loop_token_bad g c rest hb haddr hpos hti]
            refine ⟨?_, fun a => ((ih c₁).2 a).trans (hpres a)⟩
            rw [(ih c₁).1, hcong]
            simp only [List.filterMap_cons, balancePolicy, hb, if_neg haddr, if_pos hpos, ← hv]
          | some t =>
            rw [get_balances_loop_token_good g c rest hb haddr hpos hti]
            refine ⟨?_, fun a => ((ih c₁).2 a).trans (hpres a)⟩
            rw [(ih c₁).1, hcong]
            simp only [List.filterMap_cons, balancePolicy, hb, if_neg haddr, if_pos hpos, ← hv]
        · rw [get_balances_loop_token_nonpos g c rest hb haddr hpos]
          refine ⟨?_, (ih c).2⟩
          rw [(ih c).1]
          simp only [List.filterMap_cons, balancePolicy, hb, if_neg haddr, if_neg hpos]

theorem ttlLookup_cons_self {κ α : Type} [BEq κ] [LawfulBEq κ] (ttl : ℕ)
    (c : TTLEntries κ α) (now t : ℕ) (k : κ) (v : α) :
    ttlLookup ttl ((k, v, t) :: c) now k = if now < t + ttl then some v else none := by
  simp [ttlLookup, List.lookup]

theorem ttlLookup_cons_ne {κ α : Type} [BEq κ] [LawfulBEq κ] (ttl : ℕ)
    (c : TTLEntries κ α) (now t : ℕ) (k k' : κ) (v : α) (h : k' ≠ k) :
    ttlLookup ttl ((k, v, t) :: c) now k' = ttlLookup ttl c now k' := by
  simp [ttlLookup, List.lookup, beq_false_of_ne h]

/-- Pointwise resolver behind the cached `get_token_eth_value` within a single
request at time `now`: the live cache entry if any, else the oracle chain. -/
def resolveTokenPrice (env : Collaborators) (cache : TTLEntries String ℚ) (now : ℕ)
    (a : String) : ℚ :=
  match ttlLookup priceCacheTTL cache now a with
  | some v => v
  | none => get_token_eth_value_uncached (env.uniswap_get_price a) (env.kyber_get_price a)

theorem get_token_eth_value_fst (env : Collaborators) (cache : TTLEntries String ℚ)
    (now : ℕ) (a : String) :
    (get_token_eth_value env.uniswap_get_price env.kyber_get_price cache now a).1 =
      resolveTokenPrice env cache now a := by
  unfold get_token_eth_value resolveTokenPrice
  cases ttlLookup priceCacheTTL cache now a <;> rfl

theorem resolveTokenPrice_snd (env : Collaborators) (cache : TTLEntries String ℚ)
    (now : ℕ) (a x : String) :
    resolveTokenPrice env
        (get_token_eth_value env.uniswap_get_price env.kyber_get_price cache now a).2 now x =
      resolveTokenPrice env cache now x := by
  unfold get_token_eth_value
  cases h : ttlLookup priceCacheTTL cache now a with
  | some v => rfl
  | none =>
    show resolveTokenPrice env
        ((a, get_token_eth_value_uncached (env.uniswap_get_price a) (env.kyber_get_price a), now)
          :: cache) now x = resolveTokenPrice env cache now x
    by_cases hxa : x = a
    · subst hxa
      unfold resolveTokenPrice
      rw [ttlLookup_cons_self, if_pos (by unfold priceCacheTTL; omega), h]
    · unfold resolveTokenPrice
      rw [ttlLookup_cons_ne _ _ _ _ _ _ _ hxa]

/-- Per-balance USD amount of §4.5 of the spec, before rounding, given the
base-currency price `eth_value` and a token price resolver: an entry with a
falsy address is the base currency and is worth
`eth_value * raw_amount / 10^18`; a token whose resolved price is zero is
worth `0`; any other token is worth
`eth_value * price * raw_amount / 10^decimals`. -/
def valueBalance (eth_value : ℚ) (token_price : String → ℚ) (b : Balance) : ℚ :=
  match b.token_address with
  | none => eth_value * ((b.balance : ℚ) / 10 ^ 18)
  | some addr =>
    if addr = "" then eth_value * ((b.balance : ℚ) / 10 ^ 18)
    else if token_price addr ≠ 0 then
      eth_value * token_price addr *
        ((b.balance : ℚ) / 10 ^ ((b.token.map Erc20InfoWithLogo.decimals).getD 0))
    else 0

theorem get_usd_balances_loop_ether (env : Collaborators) (q : ℚ) (now : ℕ)
    (cache : TTLEntries String ℚ) {b : Balance} (rest : List Balance)
    (h : strOptFalsy b.token_address = true) :
    get_usd_balances_loop env (some q) now cache (b :: rest) =
      (match (get_usd_balances_loop env (some q) now cache rest).1 with
       | .ok vbs => .ok (⟨⟨b.token_address, b.token, b.balance⟩,
           pyRound4 (q * ((b.balance : ℚ) / 10 ^ 18))⟩ :: vbs)
       | .error e => .error e,
       (get_usd_balances_loop env (some q) now cache rest).2) := by
  rcases hr : get_usd_balances_loop env (some q) now cache rest with ⟨res, c'⟩
  rcases hb : b.token_address with _ | addr
  · cases res <;> simp [get_usd_balances_loop, hb, hr]
  · have he : addr = "" := by simpa [strOptFalsy, hb] using h
    subst he
    cases res <;> simp [get_usd_balances_loop, hb, hr]

theorem get_usd_balances_loop_ether_noprice (env : Collaborators) (now : ℕ)
    (cache : TTLEntries String ℚ) {b : Balance} (rest : List Balance)
    (h : strOptFalsy b.token_address = true) :
    get_usd_balances_loop env none now cache (b :: rest) = (.error .typeError, cache) := by
  rcases hb : b.token_address with _ | addr
  · simp [get_usd_balances_loop, hb]
  · have he : addr = "" := by simpa [strOptFalsy, hb] using h
    subst he
    simp [get_usd_balances_loop, hb]

theorem get_usd_balances_loop_token_zero (env : Collaborators) (ev : Option ℚ) (now : ℕ)
    (cache : TTLEntries String ℚ) {b : Balance} {addr : String} (rest : List Balance)
    (h : b.token_address = some addr) (hne : addr ≠ "")
    (hp : (get_token_eth_value env.uniswap_get_price env.kyber_get_price cache now addr).1
      = 0) :
    get_usd_balances_loop env ev now cache (b :: rest) =
      (match (get_usd_balances_loop env ev now
          (get_token_eth_value env.uniswap_get_price env.kyber_get_price cache now addr).2
          rest).1 with
       | .ok vbs => .ok (⟨⟨b.token_address, b.token, b.balance⟩, pyRound4 0⟩ :: vbs)
       | .error e => .error e,
       (get_usd_balances_loop env ev now
         (get_token_eth_value env.uniswap_get_price env.kyber_get_price cache now addr).2
         rest).2) := by
  rcases hpc : get_token_eth_value env.uniswap_get_price env.kyber_get_price cache now addr
    with ⟨p, c₁⟩
  rw [hpc] at hp
  rcases hr : get_usd_balances_loop env ev now c₁ rest with ⟨res, c'⟩
  have hp' : p = 0 := hp
  subst hp'
  cases res <;> simp [get_usd_balances_loop, h, hne, hpc, hr]

theorem get_usd_balances_loop_token_pos (env : Collaborators) (q : ℚ) (now : ℕ)
    (cache : TTLEntries String ℚ) {b : Balance} {addr : String} {t : Erc20InfoWithLogo}
    (rest : List Balance) (h : b.token_address = some addr) (hne : addr ≠ "")
    (ht : b.token = some t)
    (hp : (get_token_eth_value env.uniswap_get_price env.kyber_get_price cache now addr).1
      ≠ 0) :
    get_usd_balances_loop env (some q) now cache (b :: rest) =
      (match (get_usd_balances_loop env (some q) now
          (get_token_eth_value env.uniswap_get_price env.kyber_get_price cache now addr).2
          rest).1 with
       | .ok vbs => .ok (⟨⟨b.token_address, b.token, b.balance⟩,
           pyRound4 (q *
             (get_token_eth_value env.uniswap_get_price env.kyber_get_price cache now addr).1 *
             ((b.balance : ℚ) / 10 ^ t.decimals))⟩ :: vbs)
       | .error e => .error e,
       (get_usd_balances_loop env (some q) now
         (get_token_eth_value env.uniswap_get_price env.kyber_get_price cache now addr).2
         rest).2) := by
  rcases hpc : get_token_eth_value env.uniswap_get_price env.kyber_get_price cache now addr
    with ⟨p, c₁⟩
  rw [hpc] at hp
  rcases hr : get_usd_balances_loop env (some q) now c₁ rest with ⟨res, c'⟩
  cases res <;> simp [get_usd_balances_loop, h, hne, ht, hpc, hr, hp]

theorem get_usd_balances_loop_token_nometa (env : Collaborators) (ev : Option ℚ) (now : ℕ)
    (cache : TTLEntries String ℚ) {b : Balance} {addr : String} (rest : List Balance)
    (h : b.token_address = some addr) (hne : addr ≠ "") (ht : b.token = none)
    (hp : (get_token_eth_value env.uniswap_get_price env.kyber_get_price cache now addr).1
      ≠ 0) :
    get_usd_balances_loop env ev now cache (b :: rest) =
      (.error .attributeError,
        (get_token_eth_value env.uniswap_get_price env.kyber_get_price cache now addr).2) := by
  rcases hpc : get_token_eth_value env.uniswap_get_price env.kyber_get_price cache now addr
    with ⟨p, c₁⟩
  rw [hpc] at hp
  simp [get_usd_balances_loop, h, hne, ht, hpc, hp]

theorem get_usd_balances_loop_token_noprice (env : Collaborators) (now : ℕ)
    (cache : TTLEntries String ℚ) {b : Balance} {addr : String} {t : Erc20InfoWithLogo}
    (rest : List Balance) (h : b.token_address = some addr) (hne : addr ≠ "")
    (ht : b.token = some t)
    (hp : (get_token_eth_value env.uniswap_get_price env.kyber_get_price cache now addr).1
      ≠ 0) :
    get_usd_balances_loop env none now cache (b :: rest) =
      (.error .typeError,
        (get_token_eth_value env.uniswap_get_price env.kyber_get_price cache now addr).2) := by
  rcases hpc : get_token_eth_value env.uniswap_get_price env.kyber_get_price cache now addr
    with ⟨p, c₁⟩
  rw [hpc] at hp
  simp [get_usd_balances_loop, h, hne, ht, hpc, hp]

theorem get_usd_balances_loop_ok (env : Collaborators) (q : ℚ) (now : ℕ) :
    ∀ (bs : List Balance) (cache : TTLEntries String ℚ),
      (∀ b ∈ bs, ∀ addr, b.token_address = some addr → addr ≠ "" → b.token ≠ none) →
      (get_usd_balances_loop env (some q) now cache bs).1 =
        .ok (bs.map fun b =>
          ⟨b, pyRound4 (valueBalance q (resolveTokenPrice env cache now) b)⟩) ∧
      ∀ a, resolveTokenPrice env (get_usd_balances_loop env (some q) now cache bs).2 now a =
        resolveTokenPrice env cache now a := by
  intro bs
  induction bs with
  | nil => intro cache _; exact ⟨rfl, fun _ => rfl⟩
  | cons b rest ih =>
    intro cache hmeta
    have hmeta' : ∀ b' ∈ rest, ∀ addr, b'.token_address = some addr → addr ≠ "" →
        b'.token ≠ none :=
      fun b' hmem => hmeta b' (List.mem_cons_of_mem _ hmem)
    rcases hb : b.token_address with _ | addr
    · rw [get_usd_balances_loop_ether env q now cache rest (by simp [strOptFalsy, hb])]
      rw [(ih cache hmeta').1]
      refine ⟨?_, (ih cache hmeta').2⟩
      rw [show (⟨b.token_address, b.token, b.balance⟩ : Balance) = b from rfl]
      simp [valueBalance, hb]
    · by_cases haddr : addr = ""
      · subst haddr
        rw [get_usd_balances_loop_ether env q now cache rest (by simp [strOptFalsy, hb])]
        rw [(ih cache hmeta').1]
        refine ⟨?_, (ih cache hmeta').2⟩
        rw [show (⟨b.token_address, b.token, b.balance⟩ : Balance) = b from rfl]
        simp [valueBalance, hb]
      · have hpres : ∀ x, resolveTokenPrice env
            (get_token_eth_value env.uniswap_get_price env.kyber_get_price cache now addr).2
            now x = resolveTokenPrice env cache now x :=
          fun x => resolveTokenPrice_snd env cache now addr x
        have hresfun : resolveTokenPrice env
            (get_token_eth_value env.uniswap_get_price env.kyber_get_price cache now addr).2
            now = resolveTokenPrice env cache now := funext hpres
        have hfst := get_token_eth_value_fst env cache now addr
        by_cases hp : (get_token_eth_value env.uniswap_get_price env.kyber_get_price
            cache now addr).1 = 0
        · rw [get_usd_balances_loop_token_zero env (some q) now cache rest hb haddr hp]
          rw [(ih _ hmeta').1, hresfun]
          refine ⟨?_, fun a => ((ih _ hmeta').2 a).trans (hpres a)⟩
          rw [show (⟨b.token_address, b.token, b.balance⟩ : Balance) = b from rfl]
          have hres0 : resolveTokenPrice env cache now addr = 0 := by rw [← hfst]; exact hp
          simp [valueBalance, hb, haddr, hres0]
        · obtain ⟨t, ht⟩ : ∃ t, b.token = some t := by
            rcases hbt : b.token with _ | t
            · exact absurd hbt (hmeta b (List.mem_cons_self b rest) addr hb haddr)
            · exact ⟨t, rfl⟩
          rw [get_usd_balances_loop_token_pos env q now cache rest hb haddr ht hp]
          rw [(ih _ hmeta').1, hresfun]
          refine ⟨?_, fun a => ((ih _ hmeta').2 a).trans (hpres a)⟩
          rw [show (⟨b.token_address, b.token, b.balance⟩ : Balance) = b from rfl]
          have hrne : resolveTokenPrice env cache now addr ≠ 0 := by rw [← hfst]; exact hp
          simp [valueBalance, hb, haddr, ht, hrne, hfst]

theorem get_usd_balances_loop_frame (env : Collaborators) (ev : Option ℚ) (now : ℕ) :
    ∀ (bs : List Balance) (cache : TTLEntries String ℚ) (vbs : List BalanceWithUsd),
      (get_usd_balances_loop env ev now cache bs).1 = .ok vbs →
      vbs.map BalanceWithUsd.toBalance = bs := by
  intro bs
  induction bs with
  | nil =>
    intro cache vbs h
    have : Except.ok ([] : List BalanceWithUsd) = Except.ok vbs := h
    rw [← Except.ok.inj this]
    rfl
  | cons b rest ih =>
    intro cache vbs h
    rcases hb : b.token_address with _ | addr
    · cases ev with
      | none =>
        rw [get_usd_balances_loop_ether_noprice env now cache rest
          (by simp [strOptFalsy, hb])] at h
        exact absurd h (by simp)
      | some q =>
        rw [get_usd_balances_loop_ether env q now cache rest (by simp [strOptFalsy, hb])] at h
        rcases hr : (get_usd_balances_loop env (some q) now cache rest).1 with e | vbs'
        · rw [hr] at h; exact absurd h (by simp)
        · rw [hr] at h
          have hv : (⟨⟨b.token_address, b.token, b.balance⟩,
              pyRound4 (q * ((b.balance : ℚ) / 10 ^ 18))⟩ : BalanceWithUsd) :: vbs' = vbs := by
            simpa using h
          rw [← hv]
          simp [BalanceWithUsd.toBalance, ih cache vbs' hr]
    · by_cases haddr : addr = ""
      · subst haddr
        cases ev with
        | none =>
          rw [get_usd_balances_loop_ether_noprice env now cache rest
            (by simp [strOptFalsy, hb])] at h
          exact absurd h (by simp)
        | some q =>
          rw [get_usd_balances_loop_ether env q now cache rest
            (by simp [strOptFalsy, hb])] at h
          rcases hr : (get_usd_balances_loop env (some q) now cache rest).1 with e | vbs'
          · rw [hr] at h; exact absurd h (by simp)
          · rw [hr] at h
            have hv : (⟨⟨b.token_address, b.token, b.balance⟩,
                pyRound4 (q * ((b.balance : ℚ) / 10 ^ 18))⟩ : BalanceWithUsd) :: vbs' = vbs := by
              simpa using h
            rw [← hv]
            simp [BalanceWithUsd.toBalance, ih cache vbs' hr]
      · by_cases hp : (get_token_eth_value env.uniswap_get_price env.kyber_get_price
            cache now addr).1 = 0
        · rw [get_usd_balances_loop_token_zero env ev now cache rest hb haddr hp] at h
          rcases hr : (get_usd_balances_loop env ev now
              (get_token_eth_value env.uniswap_get_price env.kyber_get_price
                cache now addr).2 rest).1 with e | vbs'
          · rw [hr] at h; exact absurd h (by simp)
          · rw [hr] at h
            have hv : (⟨⟨b.token_address, b.token, b.balance⟩, pyRound4 0⟩ : BalanceWithUsd)
                :: vbs' = vbs := by
              simpa using h
            rw [← hv]
            simp [BalanceWithUsd.toBalance, ih _ vbs' hr]
        · rcases hbt : b.token with _ | t
          · rw [get_usd_balances_loop_token_nometa env ev now cache rest hb haddr hbt hp] at h
            exact absurd h (by simp)
          · cases ev with
            | none =>
              rw [get_usd_balances_loop_token_noprice env now cache rest hb haddr hbt hp] at h
              exact absurd h (by simp)
            | some q =>
              rw [get_usd_balances_loop_token_pos env q now cache rest hb haddr hbt hp] at h
              rcases hr : (get_usd_balances_loop env (some q) now
                  (get_token_eth_value env.uniswap_get_price env.kyber_get_price
                    cache now addr).2 rest).1 with e | vbs'
              · rw [hr] at h; exact absurd h (by simp)
              · rw [hr] at h
                have hv : (⟨⟨b.token_address, b.token, b.balance⟩,
                    pyRound4 (q *
                      (get_token_eth_value env.uniswap_get_price env.kyber_get_price
                        cache now addr).1 *
                      ((b.balance : ℚ) / 10 ^ t.decimals))⟩ : BalanceWithUsd) :: vbs' = vbs := by
                  simpa using h
                rw [← hv]
                simp [BalanceWithUsd.toBalance, ih _ vbs' hr]

theorem balancePolicy_token_isSome (r : String → Option Erc20InfoWithLogo)
    (raw : List RawBalance) :
    ∀ b ∈ raw.filterMap (balancePolicy r), ∀ addr,
      b.token_address = some addr → addr ≠ "" → b.token ≠ none := by
  intro b hmem addr hba hne
  rcases List.mem_filterMap.mp hmem with ⟨x, _, hx⟩
  unfold balancePolicy at hx
  rcases hxa : x.token_address with _ | xaddr <;> rw [hxa] at hx
  · have hb : (⟨none, none, x.balance⟩ : Balance) = b := by simpa using hx
    subst hb
    simp at hba
  · by_cases hxe : xaddr = ""
    · subst hxe
      have hb : (⟨some "", none, x.balance⟩ : Balance) = b := by simpa using hx
      subst hb
      simp at hba
      exact absurd hba.symm hne
    · by_cases hxp : 0 < x.balance
      · have hx' : (match r xaddr with
            | none => (none : Option Balance)
            | some t => some ⟨some xaddr, some t, x.balance⟩) = some b := by
          simpa [hxe, hxp] using hx
        rcases hrt : r xaddr with _ | t <;> rw [hrt] at hx'
        · simp at hx'
        · have hb : (⟨some xaddr, some t, x.balance⟩ : Balance) = b := by simpa using hx'
          subst hb
          simp
      · simp [hxe, hxp] at hx

theorem get_balances_ok_eq (env : Collaborators) (cache : TokenInfoCache) (a : String)
    (balances : List Balance) (infoCache : TokenInfoCache)
    (h : (get_balances env cache a).1 = .ok (balances, infoCache)) :
    balances = (env.erc20_get_balances a (env.erc20_tokens_used_by_address a)).filterMap
      (balancePolicy (resolveInfo env.erc20_get_info cache)) := by
  unfold get_balances at h
  by_cases hv : isChecksumAddress env.keccak a
  · rw [if_pos hv] at h
    have h' : get_balances_loop env.erc20_get_info cache
        (env.erc20_get_balances a (env.erc20_tokens_used_by_address a)) =
        (balances, infoCache) := by
      simpa using h
    have hs := (get_balances_loop_spec env.erc20_get_info
      (env.erc20_get_balances a (env.erc20_tokens_used_by_address a)) cache).1
    rw [h'] at hs
    exact hs
  · rw [if_neg hv] at h
    exact absurd h (by simp)

theorem get_usd_balances_ok_shape (env : Collaborators) (st : ServiceState) (now : ℕ)
    (a : String) (vbs : List BalanceWithUsd) (st' : ServiceState) (q : ℚ)
    (hrun : get_usd_balances env st now a = (.ok vbs, st'))
    (hq : (get_eth_usd_price env.kraken_response env.binance_response
      st.cache_eth_usd_price now).1 = .price q) :
    ∃ balances infoCache,
      (get_balances env st.cache_token_info a).1 = .ok (balances, infoCache) ∧
      vbs = balances.map fun b =>
        ⟨b, pyRound4 (valueBalance q
          (resolveTokenPrice env st.cache_token_eth_value now) b)⟩ := by
  unfold get_usd_balances at hrun
  rcases hgb : (get_balances env st.cache_token_info a).1 with e | ⟨balances, infoCache⟩
  · rw [hgb] at hrun
    exact absurd hrun (by simp)
  · rw [hgb] at hrun
    rcases hep : get_eth_usd_price env.kraken_response env.binance_response
        st.cache_eth_usd_price now with ⟨outcome, priceCache⟩
    rw [hep] at hq hrun
    have hout : outcome = .price q := hq
    subst hout
    dsimp only at hrun
    refine ⟨balances, infoCache, rfl, ?_⟩
    have hmeta : ∀ b ∈ balances, ∀ addr, b.token_address = some addr → addr ≠ "" →
        b.token ≠ none := by
      rw [get_balances_ok_eq env st.cache_token_info a balances infoCache hgb]
      exact balancePolicy_token_isSome _ _
    have hok := (get_usd_balances_loop_ok env q now balances
      st.cache_token_eth_value hmeta).1
    rcases hl : get_usd_balances_loop env (some q) now st.cache_token_eth_value balances
      with ⟨res, tokCache⟩
    rw [hl] at hok hrun
    have hres : res = .ok (balances.map fun b =>
        ⟨b, pyRound4 (valueBalance q
          (resolveTokenPrice env st.cache_token_eth_value now) b)⟩) := hok
    subst hres
    dsimp only at hrun
    have h1 := congrArg Prod.fst hrun
    simp only [Prod.fst] at h1
    exact (Except.ok.inj h1).symm

/-! Concrete collaborator assemblies used to instantiate the theorems below. -/

/-- All-zeros keccak digest: under it, an address body of 40 lowercase hex
characters is correctly checksummed. -/
def zeroKeccak : List Char → List ℕ := fun _ => List.replicate 40 0

/-- An address that is checksummed under `zeroKeccak`. -/
def sampleAddr : String := "0x" ++ String.mk (List.replicate 40 'a')

/-- Working collaborators: one token with a positive balance, Kraken pricing
ether at 2000 USD, Uniswap pricing the token at 0.001 ether (the spec's §8
worked example). -/
def sampleEnv : Collaborators where
  keccak := zeroKeccak
  erc20_tokens_used_by_address := fun _ => ["0xtoken"]
  erc20_get_balances := fun _ _ => [⟨none, 1500000000000000000⟩, ⟨some "0xtoken", 2500000⟩]
  erc20_get_info := fun _ => some ⟨"Token", "TOK", 6⟩
  kraken_response := ⟨true, some [], some [("XETHZUSD", ⟨some [.num 2000]⟩)]⟩
  binance_response := ⟨true, some (.num 1999)⟩
  uniswap_get_price := fun _ => .ok (1/1000)
  kyber_get_price := fun _ => .error .oracleException

/-- Collaborators whose two ticker sources and two oracles all fail. -/
def failEnv : Collaborators where
  keccak := zeroKeccak
  erc20_tokens_used_by_address := fun _ => ["0xtoken"]
  erc20_get_balances := fun _ _ => [⟨none, 5⟩, ⟨some "0xtoken", 7⟩]
  erc20_get_info := fun _ => some ⟨"Token", "TOK", 0⟩
  kraken_response := ⟨false, some ["err"], none⟩
  binance_response := ⟨false, none⟩
  uniswap_get_price := fun _ => .error .oracleException
  kyber_get_price := fun _ => .error .oracleException

/-- Collaborators with a working base-currency feed but both oracles failing,
so every token price degrades to zero. -/
def zeroOracleEnv : Collaborators where
  keccak := zeroKeccak
  erc20_tokens_used_by_address := fun _ => ["0xtoken"]
  erc20_get_balances := fun _ _ => [⟨none, 1500000000000000000⟩, ⟨some "0xtoken", 2500000⟩]
  erc20_get_info := fun _ => some ⟨"Token", "TOK", 6⟩
  kraken_response := ⟨true, some [], some [("XETHZUSD", ⟨some [.num 2000]⟩)]⟩
  binance_response := ⟨true, some (.num 1999)⟩
  uniswap_get_price := fun _ => .error .oracleException
  kyber_get_price := fun _ => .error .oracleException

/-- C4: assuming each oracle either returns a price or fails with
`OracleException`, the token price chain never raises — it returns the
primary (Uniswap) oracle's price when that succeeds, otherwise the secondary
(Kyber) oracle's price, and exactly `0` when both fail; and on a cache miss
the cached `get_token_eth_value` returns exactly the chain's value.  (That
the chain never raises is expressed by its total type `ℚ`.) -/
theorem get_token_eth_value_oracle_chain :
    (∀ (u k : Except OracleException ℚ) (p : ℚ), u = .ok p →
      get_token_eth_value_uncached u k = p) ∧
    (∀ (e : OracleException) (k : Except OracleException ℚ) (p : ℚ), k = .ok p →
      get_token_eth_value_uncached (.error e) k = p) ∧
    (∀ (e e' : OracleException), get_token_eth_value_uncached (.error e) (.error e') = 0) ∧
    (∀ (u k : String → Except OracleException ℚ) (cache : TTLEntries String ℚ) (now : ℕ)
      (a : String), ttlLookup priceCacheTTL cache now a = none →
      (get_token_eth_value u k cache now a).1 =
        get_token_eth_value_uncached (u a) (k a)) := by
  refine ⟨?_, ?_, ?_, ?_⟩
  · intro u k p h
    subst h
    rfl
  · intro e k p h
    subst h
    rfl
  · intro e e'
    rfl
  · intro u k cache now a h
    simp [get_token_eth_value, h]

/-- Witness for C4 at concrete oracles. -/
theorem get_token_eth_value_oracle_chain_witness :
    get_token_eth_value_uncached (.ok 3) (.error .oracleException) = 3 ∧
    get_token_eth_value_uncached (.error .oracleException) (.ok (1/2)) = 1/2 ∧
    get_token_eth_value_uncached (.error .oracleException) (.error .oracleException) = 0 ∧
    (get_token_eth_value (fun _ => .error .oracleException)
        (fun _ => .error .oracleException) [] 0 "0xtoken").1 =
      get_token_eth_value_uncached (.error .oracleException) (.error .oracleException) :=
  ⟨get_token_eth_value_oracle_chain.1 _ _ 3 rfl,
   get_token_eth_value_oracle_chain.2.1 .oracleException _ (1/2) rfl,
   get_token_eth_value_oracle_chain.2.2.1 .oracleException .oracleException,
   get_token_eth_value_oracle_chain.2.2.2 _ _ [] 0 "0xtoken" rfl⟩

/-- C9: an input address that is not canonically checksummed makes
`get_balances` fail with the validation error before any collaborator call
(the call trace is empty); a checksummed address always passes validation and
the call proceeds to the collaborators. -/
theorem get_balances_address_validation :
    (∀ (env : Collaborators) (cache : TokenInfoCache) (a : String),
      isChecksumAddress env.keccak a = false →
      get_balances env cache a = (.error .assertionError, [])) ∧
    (∀ (env : Collaborators) (cache : TokenInfoCache) (a : String),
      isChecksumAddress env.keccak a = true →
      (get_balances env cache a).1 =
        .ok (get_balances_loop env.erc20_get_info cache
          (env.erc20_get_balances a (env.erc20_tokens_used_by_address a)))) := by
  constructor
  · intro env cache a h
    simp [get_balances, h]
  · intro env cache a h
    simp [get_balances, h]

/-- Witness for C9: a malformed address is rejected with no collaborator
call, and the checksummed `sampleAddr` passes validation. -/
theorem get_balances_address_validation_witness :
    get_balances sampleEnv [] "0xzz" = (.error .assertionError, []) ∧
    (get_balances sampleEnv [] sampleAddr).1 =
      .ok (get_balances_loop sampleEnv.erc20_get_info []
        (sampleEnv.erc20_get_balances sampleAddr
          (sampleEnv.erc20_tokens_used_by_address sampleAddr))) :=
  ⟨get_balances_address_validation.1 sampleEnv [] "0xzz" (by with_unfolding_all rfl),
   get_balances_address_validation.2 sampleEnv [] sampleAddr (by with_unfolding_all rfl)⟩

/-- C2 counterexample: a failed metadata resolution IS stored.  With an empty
cache and a lookup that fails for `0xA`, `get_token_info` returns `None` and
writes the entry `("0xA", None)` into the cache; a second call against that
cache returns the cached `None` and leaves the cache unchanged even though
the collaborator would now succeed — the lookup is not retried. -/
theorem get_token_info_counterexample :
    get_token_info (fun _ => none) [] "0xA" = (none, [("0xA", none)]) ∧
    get_token_info (fun _ => some ⟨"Token", "TOK", 18⟩) [("0xA", none)] "0xA" =
      (none, [("0xA", none)]) := by
  constructor <;> with_unfolding_all rfl

/-- C2 amended: for every token address with no cache entry whose metadata
lookup fails, the failed (`None`) result IS stored in the metadata cache, and
every subsequent resolve call for that address returns the cached `None`
without attempting the underlying lookup again — the code negatively caches
failures. -/
theorem get_token_info_negative_caching (g : String → Option Erc20Info)
    (c : TokenInfoCache) (a : String) (hc : c.lookup a = none) (hg : g a = none) :
    get_token_info g c a = (none, (a, none) :: c) ∧
    ∀ g' : String → Option Erc20Info,
      get_token_info g' ((a, none) :: c) a = (none, (a, none) :: c) := by
  constructor
  · simp [get_token_info, hc, get_token_info_uncached, hg]
  · intro g'
    simp [get_token_info, List.lookup]

/-- Witness for C2 amended: the second call hits the cached `None` even with
a collaborator that would succeed. -/
theorem get_token_info_negative_caching_witness :
    get_token_info (fun _ => some ⟨"Tok", "TK", 8⟩) [("0xB", none)] "0xB" =
      (none, [("0xB", none)]) :=
  (get_token_info_negative_caching (fun _ => none) [] "0xB" rfl rfl).2 _

/-- C8: a price computed and cached at time `t₁` (a cache miss) is returned
unchanged by any later call made strictly before `t₁ + TTL`, for both cached
price operations, even when the underlying sources change between the calls;
only after TTL expiry can the returned price change. -/
theorem price_cache_ttl_idempotence :
    (∀ (k₁ k₂ : KrakenResponse) (b₁ b₂ : BinanceResponse)
      (cache : TTLEntries Unit (Option ℚ)) (t₁ t₂ : ℕ) (q : ℚ),
      ttlLookup priceCacheTTL cache t₁ () = none →
      get_eth_usd_price_uncached k₁ b₁ = .price q →
      t₁ ≤ t₂ → t₂ < t₁ + priceCacheTTL →
      (get_eth_usd_price k₂ b₂ (get_eth_usd_price k₁ b₁ cache t₁).2 t₂).1 = .price q) ∧
    (∀ (u₁ u₂ k₁ k₂ : String → Except OracleException ℚ) (cache : TTLEntries String ℚ)
      (t₁ t₂ : ℕ) (a : String),
      ttlLookup priceCacheTTL cache t₁ a = none →
      t₁ ≤ t₂ → t₂ < t₁ + priceCacheTTL →
      (get_token_eth_value u₂ k₂ (get_token_eth_value u₁ k₁ cache t₁ a).2 t₂ a).1 =
        (get_token_eth_value u₁ k₁ cache t₁ a).1) := by
  constructor
  · intro k₁ k₂ b₁ b₂ cache t₁ t₂ q hmiss hunc _ hlt
    have hfirst : get_eth_usd_price k₁ b₁ cache t₁ =
        (.price q, ((), some q, t₁) :: cache) := by
      simp [get_eth_usd_price, hmiss, hunc]
    rw [hfirst]
    simp [get_eth_usd_price, ttlLookup_cons_self, hlt]
  · intro u₁ u₂ k₁ k₂ cache t₁ t₂ a hmiss _ hlt
    have hfirst : get_token_eth_value u₁ k₁ cache t₁ a =
        (get_token_eth_value_uncached (u₁ a) (k₁ a),
          (a, get_token_eth_value_uncached (u₁ a) (k₁ a), t₁) :: cache) := by
      simp [get_token_eth_value, hmiss]
    rw [hfirst]
    simp [get_token_eth_value, ttlLookup_cons_self, hlt]

/-- Witness for C8: a second call 10 seconds later, with both sources now
failing, still returns the cached values of the first call. -/
theorem price_cache_ttl_idempotence_witness :
    (get_eth_usd_price ⟨false, none, none⟩ ⟨false, none⟩
      (get_eth_usd_price sampleEnv.kraken_response sampleEnv.binance_response [] 0).2
      10).1 = .price 2000 ∧
    (get_token_eth_value (fun _ => .error .oracleException) (fun _ => .error .oracleException)
      (get_token_eth_value sampleEnv.uniswap_get_price sampleEnv.kyber_get_price
        [] 0 "0xtoken").2 10 "0xtoken").1 =
      (get_token_eth_value sampleEnv.uniswap_get_price sampleEnv.kyber_get_price
        [] 0 "0xtoken").1 :=
  ⟨price_cache_ttl_idempotence.1 sampleEnv.kraken_response ⟨false, none, none⟩
      sampleEnv.binance_response ⟨false, none⟩ [] 0 10 2000 rfl
      (by with_unfolding_all rfl) (by decide) (by with_unfolding_all decide),
   price_cache_ttl_idempotence.2 sampleEnv.uniswap_get_price
      (fun _ => .error .oracleException) sampleEnv.kyber_get_price
      (fun _ => .error .oracleException) [] 0 10 "0xtoken" rfl (by decide)
      (by with_unfolding_all decide)⟩

/-- C1 counterexample: a payload with the numeric price field missing does
NOT fail with the price-unavailable error: the Binance parser raises
`KeyError` on a missing `price` key, the Kraken parser raises `KeyError` on a
missing `result` key, an ok Kraken payload with an empty `result` dict
returns Python `None` (a non-price return value), and the combined
`get_eth_usd_price` propagates the `KeyError` without consulting the second
source. -/
theorem eth_usd_price_missing_field_counterexample :
    get_eth_usd_price_binance ⟨true, none⟩ = .exn .keyError ∧
    get_eth_usd_price_kraken ⟨true, some [], none⟩ = .exn .keyError ∧
    get_eth_usd_price_kraken ⟨true, some [], some []⟩ = .noneReturn ∧
    get_eth_usd_price_uncached ⟨true, some [], none⟩ ⟨true, some (.num 7)⟩ =
      .exn .keyError ∧
    (PriceOutcome.exn .keyError ≠ PriceOutcome.exn .cannotGetEthereumPrice) ∧
    (PriceOutcome.noneReturn ≠ PriceOutcome.exn .cannotGetEthereumPrice) := by
  refine ⟨?_, ?_, ?_, ?_, ?_, ?_⟩ <;> with_unfolding_all decide

/-- C1 amended: `get_eth_usd_price` fails with `CannotGetEthereumPrice`
exactly when both ticker parsers fail with `CannotGetEthereumPrice`; each
parser signals `CannotGetEthereumPrice` when the response is not ok, when the
payload signals an error, or when the present price field parses to zero or
to a non-numeric string — but a payload missing the numeric field raises
`KeyError` instead, and an ok Kraken payload with an empty result dict
returns `None`. -/
theorem eth_usd_price_failure_modes :
    (∀ (k : KrakenResponse) (b : BinanceResponse),
      get_eth_usd_price_uncached k b = .exn .cannotGetEthereumPrice ↔
        (get_eth_usd_price_kraken k = .exn .cannotGetEthereumPrice ∧
         get_eth_usd_price_binance b = .exn .cannotGetEthereumPrice)) ∧
    (∀ b : BinanceResponse, b.ok = false →
      get_eth_usd_price_binance b = .exn .cannotGetEthereumPrice) ∧
    (∀ b : BinanceResponse, b.ok = true → b.price = some .badStr →
      get_eth_usd_price_binance b = .exn .cannotGetEthereumPrice) ∧
    (∀ b : BinanceResponse, b.ok = true → b.price = some (.num 0) →
      get_eth_usd_price_binance b = .exn .cannotGetEthereumPrice) ∧
    (∀ b : BinanceResponse, b.ok = true → b.price = none →
      get_eth_usd_price_binance b = .exn .keyError) ∧
    (∀ (k : KrakenResponse) (l : List String), k.ok = false → k.error = some l →
      get_eth_usd_price_kraken k = .exn .cannotGetEthereumPrice) ∧
    (∀ (k : KrakenResponse) (e : String) (es : List String), k.error = some (e :: es) →
      get_eth_usd_price_kraken k = .exn .cannotGetEthereumPrice) ∧
    (∀ (k : KrakenResponse) (n : String) (t : KrakenTicker)
      (rs : List (String × KrakenTicker)) (vs : List JVal),
      k.ok = true → k.error = some [] → k.result = some ((n, t) :: rs) →
      (t.c = some (.badStr :: vs) ∨ t.c = some (.num 0 :: vs)) →
      get_eth_usd_price_kraken k = .exn .cannotGetEthereumPrice) ∧
    (∀ k : KrakenResponse, k.ok = true → k.error = some [] → k.result = none →
      get_eth_usd_price_kraken k = .exn .keyError) ∧
    (∀ k : KrakenResponse, k.ok = true → k.error = some [] → k.result = some [] →
      get_eth_usd_price_kraken k = .noneReturn) := by
  refine ⟨?_, ?_, ?_, ?_, ?_, ?_, ?_, ?_, ?_, ?_⟩
  · intro k b
    cases hk : get_eth_usd_price_kraken k with
    | price q => simp [get_eth_usd_price_uncached, hk]
    | noneReturn => simp [get_eth_usd_price_uncached, hk]
    | exn e => cases e <;> simp [get_eth_usd_price_uncached, hk]
  · intro b h
    simp [get_eth_usd_price_binance, h]
  · intro b h1 h2
    simp [get_eth_usd_price_binance, h1, h2, pyFloat]
  · intro b h1 h2
    simp [get_eth_usd_price_binance, h1, h2, pyFloat]
  · intro b h1 h2
    simp [get_eth_usd_price_binance, h1, h2]
  · intro k l h1 h2
    simp [get_eth_usd_price_kraken, h1, h2]
  · intro k e es h
    simp [get_eth_usd_price_kraken, h]
  · intro k n t rs vs h1 h2 h3 hc
    rcases hc with hc | hc <;> simp [get_eth_usd_price_kraken, h1, h2, h3, hc, pyFloat]
  · intro k h1 h2 h3
    simp [get_eth_usd_price_kraken, h1, h2, h3]
  · intro k h1 h2 h3
    simp [get_eth_usd_price_kraken, h1, h2, h3]

/-- Witness for C1 amended, at concrete responses: a failing Kraken and a
failing Binance make the combined call fail with `CannotGetEthereumPrice`;
each enumerated per-source failure mode is exercised. -/
theorem eth_usd_price_failure_modes_witness :
    get_eth_usd_price_uncached ⟨false, some ["err"], none⟩ ⟨false, none⟩ =
      .exn .cannotGetEthereumPrice ∧
    get_eth_usd_price_binance ⟨false, some (.num 5)⟩ = .exn .cannotGetEthereumPrice ∧
    get_eth_usd_price_binance ⟨true, some .badStr⟩ = .exn .cannotGetEthereumPrice ∧
    get_eth_usd_price_binance ⟨true, some (.num 0)⟩ = .exn .cannotGetEthereumPrice ∧
    get_eth_usd_price_binance ⟨true, none⟩ = .exn .keyError ∧
    get_eth_usd_price_kraken ⟨false, some ["err"], none⟩ = .exn .cannotGetEthereumPrice ∧
    get_eth_usd_price_kraken ⟨true, some ["bad"], some []⟩ = .exn .cannotGetEthereumPrice ∧
    get_eth_usd_price_kraken ⟨true, some [], some [("X", ⟨some [.num 0]⟩)]⟩ =
      .exn .cannotGetEthereumPrice ∧
    get_eth_usd_price_kraken ⟨true, some [], none⟩ = .exn .keyError ∧
    get_eth_usd_price_kraken ⟨true, some [], some []⟩ = .noneReturn :=
  ⟨(eth_usd_price_failure_modes.1 ⟨false, some ["err"], none⟩ ⟨false, none⟩).mpr
      ⟨eth_usd_price_failure_modes.2.2.2.2.2.1 ⟨false, some ["err"], none⟩ ["err"] rfl rfl,
       eth_usd_price_failure_modes.2.1 ⟨false, none⟩ rfl⟩,
   eth_usd_price_failure_modes.2.1 ⟨false, some (.num 5)⟩ rfl,
   eth_usd_price_failure_modes.2.2.1 ⟨true, some .badStr⟩ rfl rfl,
   eth_usd_price_failure_modes.2.2.2.1 ⟨true, some (.num 0)⟩ rfl rfl,
   eth_usd_price_failure_modes.2.2.2.2.1 ⟨true, none⟩ rfl rfl,
   eth_usd_price_failure_modes.2.2.2.2.2.1 ⟨false, some ["err"], none⟩ ["err"] rfl rfl,
   eth_usd_price_failure_modes.2.2.2.2.2.2.1 ⟨true, some ["bad"], some []⟩ "bad" [] rfl,
   eth_usd_price_failure_modes.2.2.2.2.2.2.2.1 ⟨true, some [], some [("X", ⟨some [.num 0]⟩)]⟩
      "X" ⟨some [.num 0]⟩ [] [] rfl rfl rfl (Or.inr rfl),
   eth_usd_price_failure_modes.2.2.2.2.2.2.2.2.1 ⟨true, some [], none⟩ rfl rfl rfl,
   eth_usd_price_failure_modes.2.2.2.2.2.2.2.2.2 ⟨true, some [], some []⟩ rfl rfl rfl⟩

/-- C5: `get_balances` applies exactly the per-entry filter policy
`balancePolicy` — the base-currency entry is always included with null
metadata regardless of amount, a token entry with non-positive amount is
dropped, a token entry with positive amount whose metadata is unresolvable
is dropped, and every other token entry is included with its resolved
metadata — and the output is the order-preserving `filterMap` of the raw
balances, so retrieval order is preserved. -/
theorem get_balances_filter_policy :
    (∀ (g : String → Option Erc20Info) (c : TokenInfoCache) (raw : List RawBalance),
      (get_balances_loop g c raw).1 = raw.filterMap (balancePolicy (resolveInfo g c))) ∧
    (∀ (env : Collaborators) (cache : TokenInfoCache) (a : String),
      isChecksumAddress env.keccak a = true →
      (get_balances env cache a).1 =
        .ok ((env.erc20_get_balances a (env.erc20_tokens_used_by_address a)).filterMap
              (balancePolicy (resolveInfo env.erc20_get_info cache)),
             (get_balances_loop env.erc20_get_info cache
               (env.erc20_get_balances a (env.erc20_tokens_used_by_address a))).2)) := by
  constructor
  · intro g c raw
    exact (get_balances_loop_spec g raw c).1
  · intro env cache a h
    have hs := (get_balances_loop_spec env.erc20_get_info
      (env.erc20_get_balances a (env.erc20_tokens_used_by_address a)) cache).1
    simp [get_balances, h, ← hs]

/-- Witness for C5 at the sample collaborators and the checksummed sample
address. -/
theorem get_balances_filter_policy_witness :
    (get_balances sampleEnv [] sampleAddr).1 =
      .ok ((sampleEnv.erc20_get_balances sampleAddr
            (sampleEnv.erc20_tokens_used_by_address sampleAddr)).filterMap
            (balancePolicy (resolveInfo sampleEnv.erc20_get_info [])),
           (get_balances_loop sampleEnv.erc20_get_info []
             (sampleEnv.erc20_get_balances sampleAddr
               (sampleEnv.erc20_tokens_used_by_address sampleAddr))).2) :=
  get_balances_filter_policy.2 sampleEnv [] sampleAddr (by with_unfolding_all rfl)

/-- C10: whenever `get_usd_balances` succeeds, its output has exactly the
same length as the `get_balances` result it was built from, in the same
order, and stripping the added `balance_usd` field recovers that result
element for element — valuation changes nothing else. -/
theorem get_usd_balances_frame (env : Collaborators) (st : ServiceState) (now : ℕ)
    (a : String) (vbs : List BalanceWithUsd) (st' : ServiceState)
    (hrun : get_usd_balances env st now a = (.ok vbs, st')) :
    ∃ balances infoCache,
      (get_balances env st.cache_token_info a).1 = .ok (balances, infoCache) ∧
      vbs.map BalanceWithUsd.toBalance = balances ∧
      vbs.length = balances.length := by
  unfold get_usd_balances at hrun
  rcases hgb : (get_balances env st.cache_token_info a).1 with e | ⟨balances, infoCache⟩
  · rw [hgb] at hrun
    exact absurd hrun (by simp)
  · rw [hgb] at hrun
    rcases hep : get_eth_usd_price env.kraken_response env.binance_response
        st.cache_eth_usd_price now with ⟨outcome, priceCache⟩
    rw [hep] at hrun
    refine ⟨balances, infoCache, rfl, ?_⟩
    have frame_of : ∀ (ev : Option ℚ),
        (match get_usd_balances_loop env ev now st.cache_token_eth_value balances with
          | (.ok vbs, tokCache) => ((Except.ok vbs : Except PyErr (List BalanceWithUsd)),
              (⟨priceCache, tokCache, infoCache⟩ : ServiceState))
          | (.error e, tokCache) => (.error e, ⟨priceCache, tokCache, infoCache⟩)) =
          (.ok vbs, st') →
        vbs.map BalanceWithUsd.toBalance = balances ∧ vbs.length = balances.length := by
      intro ev h
      rcases hl : get_usd_balances_loop env ev now st.cache_token_eth_value balances
        with ⟨res, tokCache⟩
      rw [hl] at h
      cases res with
      | error e => exact absurd h (by simp)
      | ok vbs' =>
        have h1 := congrArg Prod.fst h
        simp only [Prod.fst] at h1
        have hv : vbs' = vbs := Except.ok.inj h1
        subst hv
        have hfr := get_usd_balances_loop_frame env ev now balances
          st.cache_token_eth_value vbs' (by rw [hl])
        exact ⟨hfr, by rw [← hfr, List.length_map]⟩
    cases outcome with
    | price q => exact frame_of (some q) hrun
    | noneReturn => exact frame_of none hrun
    | exn e => exact absurd hrun (by simp)

/-- Witness for C10 at the sample collaborators: the valued output strips
back to the `get_balances` output. -/
theorem get_usd_balances_frame_witness :
    ∃ balances infoCache,
      (get_balances sampleEnv (⟨[], [], []⟩ : ServiceState).cache_token_info sampleAddr).1 =
        .ok (balances, infoCache) ∧
      ([⟨⟨none, none, 1500000000000000000⟩, 3000⟩,
        ⟨⟨some "0xtoken",
          some ⟨"0xtoken", "Token", "TOK", 6,
            "https://gnosis-safe-token-logos.s3.amazonaws.com/0xtoken.png"⟩,
          2500000⟩, 5⟩] : List BalanceWithUsd).map BalanceWithUsd.toBalance = balances ∧
      ([⟨⟨none, none, 1500000000000000000⟩, 3000⟩,
        ⟨⟨some "0xtoken",
          some ⟨"0xtoken", "Token", "TOK", 6,
            "https://gnosis-safe-token-logos.s3.amazonaws.com/0xtoken.png"⟩,
          2500000⟩, 5⟩] : List BalanceWithUsd).length = balances.length :=
  get_usd_balances_frame sampleEnv ⟨[], [], []⟩ 0 sampleAddr _ _
    (by with_unfolding_all rfl)

theorem pyRound4_zero : pyRound4 0 = 0 := by
  with_unfolding_all rfl

/-- C3: for every balance returned by a successful `get_usd_balances` whose
base-currency price is `q`: a base-currency entry is valued at
`round(q * raw_amount / 10^18, 4)`, and a token entry carrying metadata `t`
whose resolved token price is nonzero is valued at
`round(q * price * raw_amount / 10^t.decimals, 4)`. -/
theorem get_usd_balances_usd_formula (env : Collaborators) (st : ServiceState) (now : ℕ)
    (a : String) (vbs : List BalanceWithUsd) (st' : ServiceState) (q : ℚ)
    (hrun : get_usd_balances env st now a = (.ok vbs, st'))
    (hq : (get_eth_usd_price env.kraken_response env.binance_response
      st.cache_eth_usd_price now).1 = .price q) :
    ∀ vb ∈ vbs,
      (strOptFalsy vb.token_address = true →
        vb.balance_usd = pyRound4 (q * ((vb.balance : ℚ) / 10 ^ 18))) ∧
      (∀ addr t, vb.token_address = some addr → addr ≠ "" → vb.token = some t →
        resolveTokenPrice env st.cache_token_eth_value now addr ≠ 0 →
        vb.balance_usd =
          pyRound4 (q * resolveTokenPrice env st.cache_token_eth_value now addr *
            ((vb.balance : ℚ) / 10 ^ t.decimals))) := by
  obtain ⟨balances, infoCache, hgb, hvbs⟩ :=
    get_usd_balances_ok_shape env st now a vbs st' q hrun hq
  subst hvbs
  intro vb hmem
  rcases List.mem_map.mp hmem with ⟨b, hbmem, rfl⟩
  constructor
  · intro hfal
    rcases hb : b.token_address with _ | addr
    · simp [valueBalance, hb]
    · have he : addr = "" := by
        have : strOptFalsy b.token_address = true := hfal
        simpa [strOptFalsy, hb] using this
      subst he
      simp [valueBalance, hb]
  · intro addr t hba hne ht hrne
    have hb : b.token_address = some addr := hba
    have ht' : b.token = some t := ht
    simp [valueBalance, hb, hne, ht', hrne]

/-- Witness for C3 at the sample collaborators: the spec's two worked
examples — 1.5 ether at 2000 USD is 3000.0000, and 2.5 units of a 6-decimals
token priced at 0.001 ether are 5.0000. -/
theorem get_usd_balances_usd_formula_witness :
    ((3000 : ℚ) = pyRound4 (2000 * (((1500000000000000000 : ℤ) : ℚ) / 10 ^ 18))) ∧
    ((5 : ℚ) = pyRound4 (2000 * resolveTokenPrice sampleEnv [] 0 "0xtoken" *
      (((2500000 : ℤ) : ℚ) / 10 ^ (6 : ℕ)))) := by
  have hrun : get_usd_balances sampleEnv ⟨[], [], []⟩ 0 sampleAddr =
      (.ok [⟨⟨none, none, 1500000000000000000⟩, 3000⟩,
            ⟨⟨some "0xtoken",
              some ⟨"0xtoken", "Token", "TOK", 6,
                "https://gnosis-safe-token-logos.s3.amazonaws.com/0xtoken.png"⟩,
              2500000⟩, 5⟩],
       ⟨[((), some 2000, 0)], [("0xtoken", 1/1000, 0)],
        [("0xtoken", some ⟨"0xtoken", "Token", "TOK", 6,
          "https://gnosis-safe-token-logos.s3.amazonaws.com/0xtoken.png"⟩)]⟩) := by
    with_unfolding_all rfl
  have hq : (get_eth_usd_price sampleEnv.kraken_response sampleEnv.binance_response
      (⟨[], [], []⟩ : ServiceState).cache_eth_usd_price 0).1 = .price 2000 := by
    with_unfolding_all rfl
  have happ := get_usd_balances_usd_formula sampleEnv ⟨[], [], []⟩ 0 sampleAddr _ _ 2000
    hrun hq
  exact ⟨(happ ⟨⟨none, none, 1500000000000000000⟩, 3000⟩
      (List.mem_cons_self _ _)).1 rfl,
    (happ ⟨⟨some "0xtoken",
        some ⟨"0xtoken", "Token", "TOK", 6,
          "https://gnosis-safe-token-logos.s3.amazonaws.com/0xtoken.png"⟩,
        2500000⟩, 5⟩
      (List.mem_cons_of_mem _ (List.mem_cons_self _ _))).2 "0xtoken"
      ⟨"0xtoken", "Token", "TOK", 6,
        "https://gnosis-safe-token-logos.s3.amazonaws.com/0xtoken.png"⟩
      rfl (by decide) rfl (by with_unfolding_all decide)⟩

/-- C7: a token balance present in the `get_balances` output whose resolved
token price is zero is still present in a successful `get_usd_balances`
output, with `balance_usd` exactly `0` — unlike the metadata-unresolvable
case, which never reaches the valued output. -/
theorem get_usd_balances_zero_price_token (env : Collaborators) (st : ServiceState)
    (now : ℕ) (a : String) (vbs : List BalanceWithUsd) (st' : ServiceState) (q : ℚ)
    (hrun : get_usd_balances env st now a = (.ok vbs, st'))
    (hq : (get_eth_usd_price env.kraken_response env.binance_response
      st.cache_eth_usd_price now).1 = .price q) :
    ∀ (balances : List Balance) (infoCache : TokenInfoCache),
      (get_balances env st.cache_token_info a).1 = .ok (balances, infoCache) →
      ∀ b ∈ balances, ∀ addr, b.token_address = some addr → addr ≠ "" →
        resolveTokenPrice env st.cache_token_eth_value now addr = 0 →
        (⟨b, 0⟩ : BalanceWithUsd) ∈ vbs := by
  obtain ⟨balances', infoCache', hgb', hvbs⟩ :=
    get_usd_balances_ok_shape env st now a vbs st' q hrun hq
  intro balances infoCache hgb b hmem addr hba hne hzero
  rw [hgb'] at hgb
  have hbal : balances' = balances := (Prod.mk.inj (Except.ok.inj hgb)).1
  subst hbal
  subst hvbs
  have hval : valueBalance q (resolveTokenPrice env st.cache_token_eth_value now) b = 0 := by
    simp [valueBalance, hba, hne, hzero]
  have hm := List.mem_map_of_mem
    (fun b => (⟨b, pyRound4 (valueBalance q
      (resolveTokenPrice env st.cache_token_eth_value now) b)⟩ : BalanceWithUsd)) hmem
  dsimp only at hm
  rw [hval, pyRound4_zero] at hm
  exact hm

/-- Witness for C7: with both oracles failing, the token entry survives into
the valued output with a USD amount of exactly `0`. -/
theorem get_usd_balances_zero_price_token_witness :
    (⟨⟨some "0xtoken",
      some ⟨"0xtoken", "Token", "TOK", 6,
        "https://gnosis-safe-token-logos.s3.amazonaws.com/0xtoken.png"⟩,
      2500000⟩, 0⟩ : BalanceWithUsd) ∈
      ([⟨⟨none, none, 1500000000000000000⟩, 3000⟩,
        ⟨⟨some "0xtoken",
          some ⟨"0xtoken", "Token", "TOK", 6,
            "https://gnosis-safe-token-logos.s3.amazonaws.com/0xtoken.png"⟩,
          2500000⟩, 0⟩] : List BalanceWithUsd) := by
  have hrun : get_usd_balances zeroOracleEnv ⟨[], [], []⟩ 0 sampleAddr =
      (.ok [⟨⟨none, none, 1500000000000000000⟩, 3000⟩,
            ⟨⟨some "0xtoken",
              some ⟨"0xtoken", "Token", "TOK", 6,
                "https://gnosis-safe-token-logos.s3.amazonaws.com/0xtoken.png"⟩,
              2500000⟩, 0⟩],
       ⟨[((), some 2000, 0)], [("0xtoken", 0, 0)],
        [("0xtoken", some ⟨"0xtoken", "Token", "TOK", 6,
          "https://gnosis-safe-token-logos.s3.amazonaws.com/0xtoken.png"⟩)]⟩) := by
    with_unfolding_all rfl
  have hq : (get_eth_usd_price zeroOracleEnv.kraken_response zeroOracleEnv.binance_response
      (⟨[], [], []⟩ : ServiceState).cache_eth_usd_price 0).1 = .price 2000 := by
    with_unfolding_all rfl
  have hgb : (get_balances zeroOracleEnv
      (⟨[], [], []⟩ : ServiceState).cache_token_info sampleAddr).1 =
      .ok ([⟨none, none, 1500000000000000000⟩,
            ⟨some "0xtoken",
             some ⟨"0xtoken", "Token", "TOK", 6,
               "https://gnosis-safe-token-logos.s3.amazonaws.com/0xtoken.png"⟩,
             2500000⟩],
           [("0xtoken", some ⟨"0xtoken", "Token", "TOK", 6,
             "https://gnosis-safe-token-logos.s3.amazonaws.com/0xtoken.png"⟩)]) := by
    with_unfolding_all rfl
  exact get_usd_balances_zero_price_token zeroOracleEnv ⟨[], [], []⟩ 0 sampleAddr _ _ 2000
    hrun hq _ _ hgb
    ⟨some "0xtoken",
      some ⟨"0xtoken", "Token", "TOK", 6,
        "https://gnosis-safe-token-logos.s3.amazonaws.com/0xtoken.png"⟩,
      2500000⟩
    (List.mem_cons_of_mem _ (List.mem_cons_self _ _)) "0xtoken" rfl (by decide)
    (by with_unfolding_all rfl)

/-- C6: for a checksummed address, when there is no live cached base price
and both ticker sources fail with the price-unavailable error, the whole
`get_usd_balances` call fails with that error — the `Except` result carries
no partial `ValuedBalance` sequence. -/
theorem get_usd_balances_price_unavailable (env : Collaborators) (st : ServiceState)
    (now : ℕ) (a : String)
    (hval : isChecksumAddress env.keccak a = true)
    (hmiss : ttlLookup priceCacheTTL st.cache_eth_usd_price now () = none)
    (hk : get_eth_usd_price_kraken env.kraken_response = .exn .cannotGetEthereumPrice)
    (hb : get_eth_usd_price_binance env.binance_response = .exn .cannotGetEthereumPrice) :
    (get_usd_balances env st now a).1 = .error .cannotGetEthereumPrice := by
  have hunc : get_eth_usd_price_uncached env.kraken_response env.binance_response =
      .exn .cannotGetEthereumPrice := by
    simp [get_eth_usd_price_uncached, hk, hb]
  have hep : get_eth_usd_price env.kraken_response env.binance_response
      st.cache_eth_usd_price now = (.exn .cannotGetEthereumPrice, st.cache_eth_usd_price) := by
    simp [get_eth_usd_price, hmiss, hunc]
  rcases hloop : get_balances_loop env.erc20_get_info st.cache_token_info
      (env.erc20_get_balances a (env.erc20_tokens_used_by_address a))
    with ⟨balances, infoCache⟩
  have hok : (get_balances env st.cache_token_info a).1 = .ok (balances, infoCache) := by
    simp [get_balances, hval, hloop]
  unfold get_usd_balances
  rw [hok, hep]

/-- Witness for C6: with both ticker sources failing, the valued-balance
request on the sample address fails with the price-unavailable error. -/
theorem get_usd_balances_price_unavailable_witness :
    (get_usd_balances failEnv ⟨[], [], []⟩ 0 sampleAddr).1 =
      .error .cannotGetEthereumPrice :=
  get_usd_balances_price_unavailable failEnv ⟨[], [], []⟩ 0 sampleAddr
    (by with_unfolding_all rfl) rfl (by with_unfolding_all rfl)
    (by with_unfolding_all rfl)

end BalanceService
